import Mathlib

set_option maxRecDepth 10000

/-!
Shallow embedding of the Smileycoin proof-of-work consensus core
(`src/pow.cpp`, `src/primitives/block.cpp`) and proofs of the spec's
claims about it.  256-bit unsigned arithmetic is modelled on `Nat`
with explicit reduction `% 2^256`; C++ `int64_t` values are modelled
on `Int`, with `/` and `%` rendered as `Int.tdiv` / `Int.tmod`
(truncation toward zero, as in C++).
-/

/-- Modulus of the 256-bit unsigned integer type `arith_uint256`. -/
def U256 : Nat := 2 ^ 256

/-- The unsigned 64-bit interpretation of a C++ `int64_t`, used when an
`int64_t` is implicitly converted to `arith_uint256` (via `uint64_t`). -/
def u64 (x : Int) : Nat := (x.emod (2 ^ 64)).toNat

/-- Helper for `bitsOf`: the first argument is fuel, always sufficient
when it is at least the bit length of `x` (in particular when it is `x`
itself). -/
def bitsOfAux : Nat → Nat → Nat
  | 0, _ => 0
  | fuel + 1, x => if x = 0 then 0 else bitsOfAux fuel (x / 2) + 1

/-- Embedding of `arith_uint256::bits()`: position of the highest set bit plus one
(0 for the zero value). -/
def bitsOf (x : Nat) : Nat := bitsOfAux x x

/-- Modelled from the spec: `arith_uint256::SetCompact` (compact-target
decode); the function itself is not under `src/`, only its callers are.
Top byte is a byte-counted exponent, low 23 bits the mantissa, bit 23 the
sign.  `value = mantissa * 256^(exponent-3)` for exponent > 3, else a
right-shifted mantissa; `negative` iff sign bit set and mantissa nonzero;
`overflow` iff exponent > 34, or exponent > 33 and mantissa > 0xff, or
exponent > 32 and mantissa > 0xffff.  Returns (value, negative, overflow). -/
def setCompact (nCompact : Nat) : Nat × Bool × Bool :=
  let nSize : Nat := nCompact / 2 ^ 24
  let nWord : Nat := nCompact % 2 ^ 23
  let value : Nat :=
    if nSize ≤ 3 then nWord / 2 ^ (8 * (3 - nSize))
    else nWord * 2 ^ (8 * (nSize - 3)) % U256
  let negative : Bool := nWord ≠ 0 && nCompact / 2 ^ 23 % 2 = 1
  let overflow : Bool :=
    decide (nSize > 34 ∨ (nWord > 0xff ∧ nSize > 33) ∨ (nWord > 0xffff ∧ nSize > 32))
  (value, negative, overflow)

/-- Modelled from the spec: `arith_uint256::GetCompact` (compact-target
encode); the function itself is not under `src/`, only its callers are.
Selects the minimal byte exponent such that the truncated 24-bit mantissa
does not collide with the sign bit. -/
def getCompact (value : Nat) : Nat :=
  let nSize : Nat := (bitsOf value + 7) / 8
  let nCompact : Nat :=
    if nSize ≤ 3 then value * 2 ^ (8 * (3 - nSize))
    else value / 2 ^ (8 * (nSize - 3))
  if nCompact % 2 ^ 24 ≥ 2 ^ 23 then nCompact / 2 ^ 8 + (nSize + 1) * 2 ^ 24
  else nCompact + nSize * 2 ^ 24

/-- The consensus parameters consulted by `pow.cpp` (`Consensus::Params`).
`powLimit` is kept in its expanded 256-bit form, as `UintToArith256`
produces it. -/
structure ConsensusParams where
  powLimit : Nat
  nPowTargetTimespan : Int
  nPowOriginalTargetTimespan : Int
  nPowTargetSpacing : Int
  fPowAllowMinDifficultyBlocks : Bool
  fPowNoRetargeting : Bool
  MultiAlgoForkHeight : Int
  DifficultyChangeForkHeight : Int
  FirstTimespanChangeHeight : Int
  MultiAlgoTimespanForkHeight : Int
  nMultiAlgoTimespan : Int
  nMultiAlgoTimespanV2 : Int
  nMultiAlgoNum : Int
  nMultiAlgoAveragingInterval : Int
  nMultiAlgoAveragingIntervalV2 : Int
  nMultiAlgoMaxAdjustUp : Int
  nMultiAlgoMaxAdjustUpV2 : Int
  nMultiAlgoMaxAdjustDown : Int
  nMultiAlgoMaxAdjustDownV2 : Int
  nMultiAlgoLocalTargetAdjustment : Int
  deriving Repr

/-- Embedding of `CheckProofOfWork` (`pow.cpp` lines 217-234): decode `nBits`; reject if
negative, zero, overflowed or above `powLimit`; then reject iff the hash
value exceeds the decoded target. -/
def CheckProofOfWork (hash : Nat) (nBits : Nat) (params : ConsensusParams) : Bool :=
  let d := setCompact nBits
  let bnTarget := d.1
  let fNegative := d.2.1
  let fOverflow := d.2.2
  if fNegative || bnTarget == 0 || fOverflow || decide (bnTarget > params.powLimit) then
    false
  else if decide (hash > bnTarget) then
    false
  else
    true

/-- Modelled from the spec: the five-element algorithm enumeration
(`block.h` is not under `src/`, so the numeric values of the `ALGO_*`
constants are unknown; distinct representatives are chosen, which is all
the claims about them use). -/
def ALGO_SHA256D : Int := 0

/-- Modelled from the spec: see `ALGO_SHA256D`. -/
def ALGO_SCRYPT : Int := 1

/-- Modelled from the spec: see `ALGO_SHA256D`. -/
def ALGO_GROESTL : Int := 2

/-- Modelled from the spec: see `ALGO_SHA256D`. -/
def ALGO_SKEIN : Int := 3

/-- Modelled from the spec: see `ALGO_SHA256D`. -/
def ALGO_QUBIT : Int := 4

/-- Embedding of `GetAlgoName` (`primitives/block.cpp` lines 82-97). -/
def GetAlgoName (algo : Int) : String :=
  if algo = ALGO_SHA256D then "sha256d"
  else if algo = ALGO_SCRYPT then "scrypt"
  else if algo = ALGO_GROESTL then "groestl"
  else if algo = ALGO_SKEIN then "skein"
  else if algo = ALGO_QUBIT then "qubit"
  else "unknown"

/-- Embedding of `GetAlgoByName` (`primitives/block.cpp` lines 99-113): lower-case the
name, match it against the recognized spellings, otherwise return the
fallback. -/
def GetAlgoByName (strAlgo : String) (fallback : Int) : Int :=
  let s := String.mk (strAlgo.data.map Char.toLower)
  if s = "sha" ∨ s = "sha256" ∨ s = "sha256d" then ALGO_SHA256D
  else if s = "scrypt" then ALGO_SCRYPT
  else if s = "groestl" then ALGO_GROESTL
  else if s = "skein" then ALGO_SKEIN
  else if s = "qubit" then ALGO_QUBIT
  else fallback

/-- C1: `CheckProofOfWork` returns false whenever the decoded target is
negative, zero, overflowed, or above the network's target limit; otherwise
it returns false exactly when the hash exceeds the decoded target and true
when the hash is at most the decoded target. -/
theorem CheckProofOfWork_correct (hash nBits : Nat) (params : ConsensusParams) :
    ((setCompact nBits).2.1 = true ∨ (setCompact nBits).1 = 0 ∨
        (setCompact nBits).2.2 = true ∨ (setCompact nBits).1 > params.powLimit →
      CheckProofOfWork hash nBits params = false) ∧
    (¬((setCompact nBits).2.1 = true ∨ (setCompact nBits).1 = 0 ∨
        (setCompact nBits).2.2 = true ∨ (setCompact nBits).1 > params.powLimit) →
      (CheckProofOfWork hash nBits params = false ↔ hash > (setCompact nBits).1) ∧
      (CheckProofOfWork hash nBits params = true ↔ hash ≤ (setCompact nBits).1)) := by
  unfold CheckProofOfWork
  constructor
  · intro hbad
    rcases hbad with h | h | h | h <;> simp [h]
  · intro hok
    push_neg at hok
    obtain ⟨h1, h2, h3, h4⟩ := hok
    simp only [h1, h2, h3]
    simp only [Bool.false_or, beq_iff_eq, h2, if_false]
    rw [decide_eq_false (by omega : ¬ (setCompact nBits).1 > params.powLimit)]
    by_cases hh : hash > (setCompact nBits).1
    · simp [hh]
    · simp [hh]; omega

/-- C1 witness: a concrete accepting run of `CheckProofOfWork`
(target `0x1e0fffff`, hash 1). -/
theorem CheckProofOfWork_correct_witness :
    CheckProofOfWork 1 0x1e0fffff
        { powLimit := 0x0fffff * 2 ^ 216, nPowTargetTimespan := 1800,
          nPowOriginalTargetTimespan := 1800, nPowTargetSpacing := 180,
          fPowAllowMinDifficultyBlocks := false, fPowNoRetargeting := false,
          MultiAlgoForkHeight := 218000, DifficultyChangeForkHeight := 225430,
          FirstTimespanChangeHeight := 97050, MultiAlgoTimespanForkHeight := 225000,
          nMultiAlgoTimespan := 180, nMultiAlgoTimespanV2 := 36, nMultiAlgoNum := 5,
          nMultiAlgoAveragingInterval := 60, nMultiAlgoAveragingIntervalV2 := 2,
          nMultiAlgoMaxAdjustUp := 40, nMultiAlgoMaxAdjustUpV2 := 16,
          nMultiAlgoMaxAdjustDown := 40, nMultiAlgoMaxAdjustDownV2 := 16,
          nMultiAlgoLocalTargetAdjustment := 4 } = true :=
  ((CheckProofOfWork_correct 1 0x1e0fffff _).2 (by decide)).2.mpr (by decide)

/-- C9: for each of the five algorithm codes and any fallback value,
`GetAlgoByName (GetAlgoName c) fallback = c`, and `GetAlgoName` never
returns "unknown" on these codes. -/
theorem algoName_roundTrip (fallback : Int) :
    (GetAlgoByName (GetAlgoName ALGO_SHA256D) fallback = ALGO_SHA256D ∧
      GetAlgoName ALGO_SHA256D ≠ "unknown") ∧
    (GetAlgoByName (GetAlgoName ALGO_SCRYPT) fallback = ALGO_SCRYPT ∧
      GetAlgoName ALGO_SCRYPT ≠ "unknown") ∧
    (GetAlgoByName (GetAlgoName ALGO_GROESTL) fallback = ALGO_GROESTL ∧
      GetAlgoName ALGO_GROESTL ≠ "unknown") ∧
    (GetAlgoByName (GetAlgoName ALGO_SKEIN) fallback = ALGO_SKEIN ∧
      GetAlgoName ALGO_SKEIN ≠ "unknown") ∧
    (GetAlgoByName (GetAlgoName ALGO_QUBIT) fallback = ALGO_QUBIT ∧
      GetAlgoName ALGO_QUBIT ≠ "unknown") := by
  refine ⟨⟨?_, by decide⟩, ⟨?_, by decide⟩, ⟨?_, by decide⟩, ⟨?_, by decide⟩,
    ⟨?_, by decide⟩⟩ <;> rfl

/-- Embedding of `CBlockIndex` (declared in `chain.h`, consulted by `pow.cpp`): one
block's position in the accepted chain.  `algoTag` stands for the value of
`GetAlgo()` on the block's version (the version-mask constants are not
under `src/`; the retarget code only consumes the resulting tag), and
`mtp` is the node's `GetMedianTimePast()` value, modelled from the spec as
a stored per-node attribute.  Predecessor links form a finite acyclic
chain ending at a `genesis` node by construction, the documented
precondition of the traversals. -/
inductive CBlockIndex where
  | genesis (nHeight nTime : Int) (nBits : Nat) (algoTag : Int) (mtp : Int)
  | link (nHeight nTime : Int) (nBits : Nat) (algoTag : Int) (mtp : Int)
      (pprev : CBlockIndex)
  deriving Repr

/-- Accessor for `pindex->nHeight`. -/
def CBlockIndex.nHeight : CBlockIndex → Int
  | .genesis h _ _ _ _ => h
  | .link h _ _ _ _ _ => h

/-- Accessor for `pindex->nTime` / `pindex->GetBlockTime()`. -/
def CBlockIndex.nTime : CBlockIndex → Int
  | .genesis _ t _ _ _ => t
  | .link _ t _ _ _ _ => t

/-- Accessor for `pindex->nBits`. -/
def CBlockIndex.nBits : CBlockIndex → Nat
  | .genesis _ _ b _ _ => b
  | .link _ _ b _ _ _ => b

/-- Accessor for `pindex->GetAlgo()`. -/
def CBlockIndex.algoTag : CBlockIndex → Int
  | .genesis _ _ _ a _ => a
  | .link _ _ _ a _ _ => a

/-- Accessor for `pindex->GetMedianTimePast()` (modelled from the spec as a stored
attribute; `chain.h` is not under `src/`). -/
def CBlockIndex.mtp : CBlockIndex → Int
  | .genesis _ _ _ _ m => m
  | .link _ _ _ _ m _ => m

/-- Accessor for `pindex->pprev` (null at the chain root). -/
def CBlockIndex.pprev : CBlockIndex → Option CBlockIndex
  | .genesis _ _ _ _ _ => none
  | .link _ _ _ _ _ p => some p

/-- The candidate block header as `pow.cpp` reads it: its time
(`pblock->GetBlockTime()`) and its algorithm tag (`pblock->GetAlgo()`,
see `CBlockIndex.algoTag` for why the tag is carried directly). -/
structure CBlockHeader where
  nTime : Int
  algoTag : Int
  deriving Repr

/-- Embedding of `GetLastBlockIndexForAlgo` (`pow.cpp` lines 236-252): walk backward
from `pindex` (inclusive); skip nodes of the wrong algorithm; skip
min-difficulty testnet nodes (flag set, predecessor exists, and time more
than `2 * nMultiAlgoTargetSpacing` past the predecessor's); return the
first remaining node, or null at the end of the chain. -/
def GetLastBlockIndexForAlgo (pindex : CBlockIndex) (params : ConsensusParams)
    (algo : Int) (nMultiAlgoTargetSpacing : Int) : Option CBlockIndex :=
  match pindex with
  | .genesis h t b a m =>
      if a ≠ algo then none
      else some (.genesis h t b a m)
  | .link h t b a m prev =>
      if a ≠ algo then GetLastBlockIndexForAlgo prev params algo nMultiAlgoTargetSpacing
      else if params.fPowAllowMinDifficultyBlocks ∧
          t > prev.nTime + nMultiAlgoTargetSpacing * 2 then
        GetLastBlockIndexForAlgo prev params algo nMultiAlgoTargetSpacing
      else some (.link h t b a m prev)

/-- The backward traversal order of a chain, tip first, root last. -/
def chainToList : CBlockIndex → List CBlockIndex
  | .genesis h t b a m => [.genesis h t b a m]
  | .link h t b a m prev => .link h t b a m prev :: chainToList prev

/-- The skip test of `GetLastBlockIndexForAlgo`: flag set, predecessor
exists, and the node's time exceeds its predecessor's by more than
`2 * nMultiAlgoTargetSpacing`. -/
def isMinDiffSkipped (params : ConsensusParams) (nMultiAlgoTargetSpacing : Int) :
    CBlockIndex → Bool
  | .genesis _ _ _ _ _ => false
  | .link _ t _ _ _ prev =>
      params.fPowAllowMinDifficultyBlocks &&
        decide (t > prev.nTime + nMultiAlgoTargetSpacing * 2)

/-- C6: `GetLastBlockIndexForAlgo` returns the first node in backward
(tip-to-root) order whose algorithm tag matches and which is not skipped
by the min-difficulty test, and returns none exactly when no such node
exists on the chain. -/
theorem getLastBlockIndexForAlgo_spec (p : CBlockIndex) (params : ConsensusParams)
    (algo spacing : Int) :
    GetLastBlockIndexForAlgo p params algo spacing =
      (chainToList p).find?
        (fun n => n.algoTag == algo && !isMinDiffSkipped params spacing n) ∧
    (GetLastBlockIndexForAlgo p params algo spacing = none ↔
      ∀ n ∈ chainToList p,
        ¬(n.algoTag = algo ∧ isMinDiffSkipped params spacing n = false)) := by
  have key : GetLastBlockIndexForAlgo p params algo spacing =
      (chainToList p).find?
        (fun n => n.algoTag == algo && !isMinDiffSkipped params spacing n) := by
    induction p with
    | genesis h t b a m =>
        by_cases ha : a = algo
        · have hb : (a == algo) = true := beq_iff_eq.mpr ha
          simp [GetLastBlockIndexForAlgo, chainToList, List.find?, ha, hb,
            CBlockIndex.algoTag, isMinDiffSkipped]
        · have hb : (a == algo) = false := beq_eq_false_iff_ne.mpr ha
          simp [GetLastBlockIndexForAlgo, chainToList, List.find?, ha, hb,
            CBlockIndex.algoTag, isMinDiffSkipped]
    | link h t b a m prev ih =>
        by_cases ha : a = algo
        · have hb : (a == algo) = true := beq_iff_eq.mpr ha
          by_cases hs : params.fPowAllowMinDifficultyBlocks ∧
              t > prev.nTime + spacing * 2
          · have hskip : (params.fPowAllowMinDifficultyBlocks &&
                decide (prev.nTime + spacing * 2 < t)) = true := by
              simp [hs.1]; exact hs.2
            simp [GetLastBlockIndexForAlgo, chainToList, List.find?, ha, hs, hb,
              CBlockIndex.algoTag, isMinDiffSkipped, hskip, ih]
          · have hskip : (params.fPowAllowMinDifficultyBlocks &&
                decide (prev.nTime + spacing * 2 < t)) = false := by
              rw [Bool.and_eq_false_iff]
              by_cases hf : params.fPowAllowMinDifficultyBlocks
              · right
                rw [decide_eq_false_iff_not]
                intro hlt
                exact hs ⟨hf, hlt⟩
              · left; exact Bool.not_eq_true _ |>.mp hf
            simp [GetLastBlockIndexForAlgo, chainToList, List.find?, ha, hs, hb,
              CBlockIndex.algoTag, isMinDiffSkipped, hskip]
        · have hb : (a == algo) = false := beq_eq_false_iff_ne.mpr ha
          simp [GetLastBlockIndexForAlgo, chainToList, List.find?, ha, hb,
            CBlockIndex.algoTag, isMinDiffSkipped, ih]
  refine ⟨key, ?_⟩
  rw [key, List.find?_eq_none]
  constructor
  · intro hall n hn hcond
    have := hall n hn
    simp [hcond.1, hcond.2] at this
  · intro hall n hn
    have := hall n hn
    simp only [Bool.and_eq_true, beq_iff_eq, Bool.not_eq_true'] at *
    tauto

/-- C10: at a chain-root node (no predecessor) whose algorithm tag
matches, `GetLastBlockIndexForAlgo` returns that node unconditionally;
the min-difficulty skip test is never applied to a node without a
predecessor. -/
theorem getLastBlockIndexForAlgo_root (h t : Int) (b : Nat) (a m : Int)
    (params : ConsensusParams) (algo spacing : Int) (ha : a = algo) :
    GetLastBlockIndexForAlgo (.genesis h t b a m) params algo spacing =
      some (.genesis h t b a m) := by
  simp [GetLastBlockIndexForAlgo, ha]

/-- C10 witness: a root node with the matching algorithm, the
min-difficulty flag set, and an arbitrarily late timestamp is still
returned. -/
theorem getLastBlockIndexForAlgo_root_witness :
    GetLastBlockIndexForAlgo (.genesis 0 1000000000 0x1e0fffff 1 0)
        { powLimit := 0x0fffff * 2 ^ 216, nPowTargetTimespan := 1800,
          nPowOriginalTargetTimespan := 1800, nPowTargetSpacing := 180,
          fPowAllowMinDifficultyBlocks := true, fPowNoRetargeting := false,
          MultiAlgoForkHeight := 218000, DifficultyChangeForkHeight := 225430,
          FirstTimespanChangeHeight := 97050, MultiAlgoTimespanForkHeight := 225000,
          nMultiAlgoTimespan := 180, nMultiAlgoTimespanV2 := 36, nMultiAlgoNum := 5,
          nMultiAlgoAveragingInterval := 60, nMultiAlgoAveragingIntervalV2 := 2,
          nMultiAlgoMaxAdjustUp := 40, nMultiAlgoMaxAdjustUpV2 := 16,
          nMultiAlgoMaxAdjustDown := 40, nMultiAlgoMaxAdjustDownV2 := 16,
          nMultiAlgoLocalTargetAdjustment := 4 } 1 900 =
      some (.genesis 0 1000000000 0x1e0fffff 1 0) :=
  getLastBlockIndexForAlgo_root 0 1000000000 0x1e0fffff 1 0 _ 1 900 rfl

/-- Value of `NUM_ALGOS`: the number of mining algorithms (five). -/
def NUM_ALGOS : Int := 5

/-- The ancestor-walk loop of `pow.cpp` (`for (int i = 0; pindexFirst && i
< n; i++) pindexFirst = pindexFirst->pprev;`): step `n` predecessor links
back from `p`, null when the chain is shorter than `n`. -/
def walkBack : CBlockIndex → Nat → Option CBlockIndex
  | p, 0 => some p
  | .genesis _ _ _ _ _, _ + 1 => none
  | .link _ _ _ _ _ prev, n + 1 => walkBack prev n

/-- The positive-adjustment loop of the per-algorithm local retarget
(`pow.cpp` lines 158-162): `n` times, `bnNew *= 100; bnNew /= (100 +
nMultiAlgoLocalTargetAdjustment);`, each step a truncating
multiply-divide on the 256-bit value. -/
def tightenLoop (adj : Int) : Nat → Nat → Nat
  | 0, x => x
  | n + 1, x => tightenLoop adj n (x * 100 % U256 / u64 (100 + adj))

/-- The negative-adjustment loop of the per-algorithm local retarget
(`pow.cpp` lines 163-167): `n` times, `bnNew *= (100 +
nMultiAlgoLocalTargetAdjustment); bnNew /= 100;`. -/
def loosenLoop (adj : Int) : Nat → Nat → Nat
  | 0, x => x
  | n + 1, x => loosenLoop adj n (x * u64 (100 + adj) % U256 / 100)

/-- The per-algorithm local retarget stage (`pow.cpp` lines 156-168),
dispatching on the sign of `nAdjustments`. -/
def perAlgoAdjust (adj nAdjustments : Int) (x : Nat) : Nat :=
  if nAdjustments > 0 then tightenLoop adj nAdjustments.toNat x
  else if nAdjustments < 0 then loosenLoop adj (-nAdjustments).toNat x
  else x

/-- The dampening stage of the multi-algorithm retarget (`pow.cpp` lines
119-132), returning the dampened `nActualTimespan` together with
`nMultiAlgoAveragingTargetTimespan`.  On the branch `nHeight >= 222524 &&
nHeight < DifficultyChangeForkHeight` the C++ reads
`nMultiAlgoAveragingTargetTimespan` before assigning it; the value of
that uninitialized read is modelled from the spec, which fixes it as
reading zero. -/
def multiAlgoDampen (params : ConsensusParams) (tipHeight spacing a : Int) :
    Int × Int :=
  if tipHeight < params.DifficultyChangeForkHeight then
    if tipHeight ≥ 222524 then
      (0 + Int.tdiv (a - 0) 4, params.nMultiAlgoAveragingInterval * spacing)
    else
      (params.nMultiAlgoAveragingInterval * spacing +
        Int.tdiv (a - params.nMultiAlgoAveragingInterval * spacing) 4,
       params.nMultiAlgoAveragingInterval * spacing)
  else
    (params.nMultiAlgoAveragingInterval * spacing +
      Int.tdiv (a - params.nMultiAlgoAveragingInterval * spacing) 4,
     params.nMultiAlgoAveragingInterval * spacing)

/-- Computation `nMultiAlgoTargetSpacing = params.nMultiAlgoNum * nMultiAlgoTimespan`
(`pow.cpp` lines 107-108), with the timespan selected by
`MultiAlgoTimespanForkHeight`. -/
def multiAlgoSpacing (params : ConsensusParams) (tipHeight : Int) : Int :=
  params.nMultiAlgoNum *
    (if tipHeight < params.MultiAlgoTimespanForkHeight then
      params.nMultiAlgoTimespan
    else params.nMultiAlgoTimespanV2)

/-- The number of ancestor steps taken to locate the averaging-window
start (`pow.cpp` line 103): `NUM_ALGOS` times the averaging interval,
with the interval selected by `DifficultyChangeForkHeight`. -/
def multiAlgoWindowSteps (params : ConsensusParams) (tipHeight : Int) : Nat :=
  (NUM_ALGOS *
    (if tipHeight ≥ params.DifficultyChangeForkHeight then
      params.nMultiAlgoAveragingIntervalV2
    else params.nMultiAlgoAveragingInterval)).toNat

/-- Embedding of `GetNextMultiAlgoWorkRequired` (`pow.cpp` lines 79-177): the
multi-algorithm retarget.  The `uint` subtlety in `fShift` — when
`powLimit` is zero, `bnPowLimit.bits() - 1` wraps around to `UINT_MAX`
and the comparison is false — is rendered by the `0 < bitsOf` guard. -/
def GetNextMultiAlgoWorkRequired (pindexLast : CBlockIndex)
    (pblock : CBlockHeader) (params : ConsensusParams) : Nat :=
  let algo := pblock.algoTag
  let fDiffChange := decide (pindexLast.nHeight ≥ params.DifficultyChangeForkHeight)
  let nProofOfWorkLimit := getCompact params.powLimit
  let pindexFirst := walkBack pindexLast (multiAlgoWindowSteps params pindexLast.nHeight)
  let nMultiAlgoTargetSpacing := multiAlgoSpacing params pindexLast.nHeight
  match GetLastBlockIndexForAlgo pindexLast params algo nMultiAlgoTargetSpacing,
      pindexFirst with
  | some pindexPrevAlgo, some first =>
      let d := multiAlgoDampen params pindexLast.nHeight nMultiAlgoTargetSpacing
        (pindexLast.mtp - first.mtp)
      let nActualTimespan := d.1
      let nMultiAlgoAveragingTargetTimespan := d.2
      let nMinActualTimespan := Int.tdiv (nMultiAlgoAveragingTargetTimespan *
        (100 - (if fDiffChange then params.nMultiAlgoMaxAdjustUpV2
                else params.nMultiAlgoMaxAdjustUp))) 100
      let nMaxActualTimespan := Int.tdiv (nMultiAlgoAveragingTargetTimespan *
        (100 + (if fDiffChange then params.nMultiAlgoMaxAdjustDownV2
                else params.nMultiAlgoMaxAdjustDown))) 100
      let a1 := if nActualTimespan < nMinActualTimespan then nMinActualTimespan
        else nActualTimespan
      let a2 := if a1 > nMaxActualTimespan then nMaxActualTimespan else a1
      let bnNew := (setCompact pindexPrevAlgo.nBits).1
      let fShift := decide (0 < bitsOf params.powLimit ∧
        bitsOf bnNew > bitsOf params.powLimit - 1)
      let b1 := if fShift then bnNew / 2 else bnNew
      let b2 := b1 * u64 a2 % U256
      let b3 := b2 / u64 nMultiAlgoAveragingTargetTimespan
      let nAdjustments := pindexPrevAlgo.nHeight + NUM_ALGOS - 1 - pindexLast.nHeight
      let b4 := perAlgoAdjust params.nMultiAlgoLocalTargetAdjustment nAdjustments b3
      let b5 := if fShift then b4 * 2 % U256 else b4
      let b6 := if b5 > params.powLimit then params.powLimit else b5
      getCompact b6
  | _, _ => nProofOfWorkLimit

/-- A concrete sample parameter set in the shape of the Smileycoin main
network, used to evaluate the definitions on closed inputs. -/
def sampleParams : ConsensusParams where
  powLimit := 0x0fffff * 2 ^ 216
  nPowTargetTimespan := 1800
  nPowOriginalTargetTimespan := 1800
  nPowTargetSpacing := 180
  fPowAllowMinDifficultyBlocks := false
  fPowNoRetargeting := false
  MultiAlgoForkHeight := 218000
  DifficultyChangeForkHeight := 225430
  FirstTimespanChangeHeight := 97050
  MultiAlgoTimespanForkHeight := 225000
  nMultiAlgoTimespan := 180
  nMultiAlgoTimespanV2 := 36
  nMultiAlgoNum := 5
  nMultiAlgoAveragingInterval := 60
  nMultiAlgoAveragingIntervalV2 := 2
  nMultiAlgoMaxAdjustUp := 40
  nMultiAlgoMaxAdjustUpV2 := 16
  nMultiAlgoMaxAdjustDown := 40
  nMultiAlgoMaxAdjustDownV2 := 16
  nMultiAlgoLocalTargetAdjustment := 4

lemma getLastForAlgo_none_of_allOther (p : CBlockIndex) (params : ConsensusParams)
    (algo spacing : Int) (h : ∀ n ∈ chainToList p, n.algoTag ≠ algo) :
    GetLastBlockIndexForAlgo p params algo spacing = none := by
  induction p with
  | genesis hh t b a m =>
      have := h (.genesis hh t b a m) (by simp [chainToList])
      simp [GetLastBlockIndexForAlgo, CBlockIndex.algoTag] at this ⊢
      exact this
  | link hh t b a m prev ih =>
      have ha := h (.link hh t b a m prev) (by simp [chainToList])
      simp [CBlockIndex.algoTag] at ha
      have hrest : ∀ n ∈ chainToList prev, n.algoTag ≠ algo := by
        intro n hn
        exact h n (by simp [chainToList, hn])
      simp [GetLastBlockIndexForAlgo, ha, ih hrest]

/-- C5: if the previous block for the candidate's algorithm is not found,
or the averaging-window start does not exist, the multi-algorithm
retarget returns the minimum-difficulty (pow-limit) compact target; in
particular, on a chain that only ever used one algorithm, retargeting for
any other algorithm returns that fallback. -/
theorem multiAlgo_noHistory_fallback (tip : CBlockIndex) (pblock : CBlockHeader)
    (params : ConsensusParams) :
    ((GetLastBlockIndexForAlgo tip params pblock.algoTag
          (multiAlgoSpacing params tip.nHeight) = none ∨
        walkBack tip (multiAlgoWindowSteps params tip.nHeight) = none) →
      GetNextMultiAlgoWorkRequired tip pblock params = getCompact params.powLimit) ∧
    (∀ a : Int, (∀ n ∈ chainToList tip, n.algoTag = a) → pblock.algoTag ≠ a →
      GetNextMultiAlgoWorkRequired tip pblock params = getCompact params.powLimit) := by
  have hmain : (GetLastBlockIndexForAlgo tip params pblock.algoTag
          (multiAlgoSpacing params tip.nHeight) = none ∨
        walkBack tip (multiAlgoWindowSteps params tip.nHeight) = none) →
      GetNextMultiAlgoWorkRequired tip pblock params = getCompact params.powLimit := by
    intro hor
    unfold GetNextMultiAlgoWorkRequired
    cases hX : GetLastBlockIndexForAlgo tip params pblock.algoTag
        (multiAlgoSpacing params tip.nHeight) with
    | none =>
        cases hY : walkBack tip (multiAlgoWindowSteps params tip.nHeight) with
        | none => simp [hX, hY]
        | some f => simp [hX, hY]
    | some pa =>
        cases hY : walkBack tip (multiAlgoWindowSteps params tip.nHeight) with
        | none => simp [hX, hY]
        | some f =>
            rcases hor with h | h
            · rw [hX] at h; cases h
            · rw [hY] at h; cases h
  refine ⟨hmain, ?_⟩
  intro a hall hne
  apply hmain
  left
  apply getLastForAlgo_none_of_allOther
  intro n hn
  rw [hall n hn]
  intro hc
  exact hne hc.symm

/-- C5 witness: a two-block chain mined only with algorithm 1; a candidate
for algorithm 2 gets the pow-limit compact target. -/
theorem multiAlgo_noHistory_fallback_witness :
    GetNextMultiAlgoWorkRequired
        (.link 1 1180 0x1e0fffff 1 0 (.genesis 0 1000 0x1e0fffff 1 0))
        ⟨2000, 2⟩ sampleParams = getCompact sampleParams.powLimit :=
  (multiAlgo_noHistory_fallback _ _ _).2 1 (by decide) (by decide)

/-- C2 counterexample: at tip height 1000 — below 222524 and below the
difficulty-change fork height — the dampened timespan EQUALS the
documented formula
`averaging_target_timespan + (actual - averaging_target_timespan) / 4`
(the assignment happens before the read on this branch), contradicting
the claim that it differs there. -/
theorem multiAlgoDampen_pre222524_matches_formula :
    (1000 : Int) < 222524 ∧
    (1000 : Int) < sampleParams.DifficultyChangeForkHeight ∧
    (multiAlgoDampen sampleParams 1000 900 100000).1 =
      (multiAlgoDampen sampleParams 1000 900 100000).2 +
        Int.tdiv (100000 - (multiAlgoDampen sampleParams 1000 900 100000).2) 4 := by
  refine ⟨by decide, by decide, by decide⟩

/-- C2 (amended): the read-before-assignment quirk is on the branch with
tip height at least 222524 and below the difficulty-change fork height;
there the dampening uses the unassigned `nMultiAlgoAveragingTargetTimespan`
(reading zero, as the spec fixes), so the dampened timespan is
`actual / 4`, which differs from the documented formula (13500 versus
54000 on the sample inputs). -/
theorem multiAlgoDampen_quirk (params : ConsensusParams) (h s a : Int)
    (h1 : 222524 ≤ h) (h2 : h < params.DifficultyChangeForkHeight) :
    (multiAlgoDampen params h s a).1 = Int.tdiv a 4 ∧
    (multiAlgoDampen sampleParams 222524 900 54000).1 = 13500 ∧
    (multiAlgoDampen sampleParams 222524 900 54000).2 +
      Int.tdiv (54000 - (multiAlgoDampen sampleParams 222524 900 54000).2) 4 =
      54000 := by
  refine ⟨?_, by decide, by decide⟩
  unfold multiAlgoDampen
  rw [if_pos h2, if_pos h1]
  simp

/-- C2 witness: the quirk branch evaluated at tip height 222524. -/
theorem multiAlgoDampen_quirk_witness :
    (multiAlgoDampen sampleParams 222524 900 100000).1 = Int.tdiv 100000 4 :=
  (multiAlgoDampen_quirk sampleParams 222524 900 100000 (by decide) (by decide)).1

lemma tightenLoop_eq_iterate (adj : Int) (n x : Nat) :
    tightenLoop adj n x = (fun v => v * 100 % U256 / u64 (100 + adj))^[n] x := by
  induction n generalizing x with
  | zero => rfl
  | succ n ih =>
      rw [tightenLoop, Function.iterate_succ_apply]
      exact ih _

lemma loosenLoop_eq_iterate (adj : Int) (n x : Nat) :
    loosenLoop adj n x = (fun v => v * u64 (100 + adj) % U256 / 100)^[n] x := by
  induction n generalizing x with
  | zero => rfl
  | succ n ih =>
      rw [loosenLoop, Function.iterate_succ_apply]
      exact ih _

/-- C7: with positive `nAdjustments` the per-algorithm local retarget
performs exactly that many truncating `* 100 / (100 + adj)` steps, with
negative `nAdjustments` exactly `-nAdjustments` truncating
`* (100 + adj) / 100` steps; and per-step truncation differs from a
single exponentiated ratio (two steps on 105 with adj 4 give 96, the
single ratio gives 97). -/
theorem perAlgoAdjust_spec (adj k : Int) (x : Nat) :
    (k > 0 → perAlgoAdjust adj k x =
      (fun v => v * 100 % U256 / u64 (100 + adj))^[k.toNat] x) ∧
    (k < 0 → perAlgoAdjust adj k x =
      (fun v => v * u64 (100 + adj) % U256 / 100)^[(-k).toNat] x) ∧
    perAlgoAdjust 4 2 105 = 96 ∧ 105 * 100 ^ 2 / (100 + 4) ^ 2 = 97 ∧
    perAlgoAdjust 4 2 105 ≠ 105 * 100 ^ 2 / (100 + 4) ^ 2 := by
  refine ⟨?_, ?_, by decide, by decide, by decide⟩
  · intro hk
    unfold perAlgoAdjust
    rw [if_pos hk]
    exact tightenLoop_eq_iterate adj k.toNat x
  · intro hk
    unfold perAlgoAdjust
    rw [if_neg (by omega), if_pos hk]
    exact loosenLoop_eq_iterate adj (-k).toNat x

/-- C7 witness: a positive adjustment count of 2, evaluated concretely. -/
theorem perAlgoAdjust_spec_witness :
    perAlgoAdjust 4 2 105 =
      (fun v => v * 100 % U256 / u64 (100 + 4))^[(2 : Int).toNat] 105 :=
  (perAlgoAdjust_spec 4 2 105).1 (by decide)

/-- The target-timespan selection of `CalculateNextWorkRequired`
(`pow.cpp` lines 185-187): the original timespan when the PREVIOUS
block's height is below `FirstTimespanChangeHeight`, the current one
otherwise. -/
def legacySelectedTimespan (params : ConsensusParams) (prevHeight : Int) : Int :=
  if prevHeight < params.FirstTimespanChangeHeight then
    params.nPowOriginalTargetTimespan
  else params.nPowTargetTimespan

/-- The two sequential clamping steps of `CalculateNextWorkRequired`
(`pow.cpp` lines 190-194). -/
def clampTimespan (t a : Int) : Int :=
  let a1 := if a < Int.tdiv t 4 then Int.tdiv t 4 else a
  if a1 > t * 4 then t * 4 else a1

/-- The pre-shift / multiply / divide / un-shift / clamp-to-limit /
encode tail shared by the retargets (`pow.cpp` lines 196-214). -/
def legacyRetargetCalc (nBits : Nat) (a t : Int) (limit : Nat) : Nat :=
  let bnNew := (setCompact nBits).1
  let fShift := decide (0 < bitsOf limit ∧ bitsOf bnNew > bitsOf limit - 1)
  let b1 := if fShift then bnNew / 2 else bnNew
  let b2 := b1 * u64 a % U256
  let b3 := b2 / u64 t
  let b4 := if fShift then b3 * 2 % U256 else b3
  let b5 := if b4 > limit then limit else b4
  getCompact b5

/-- Embedding of `CalculateNextWorkRequired` (`pow.cpp` lines 179-215), written as the
source writes it: timespan selection, sequential clamping, then the
shift-multiply-divide-encode tail. -/
def CalculateNextWorkRequired (pindexLast : CBlockIndex) (nFirstBlockTime : Int)
    (params : ConsensusParams) : Nat :=
  if params.fPowNoRetargeting then pindexLast.nBits
  else
    let nPowTargetTimespan :=
      if pindexLast.nHeight < params.FirstTimespanChangeHeight then
        params.nPowOriginalTargetTimespan
      else params.nPowTargetTimespan
    let a0 := pindexLast.nTime - nFirstBlockTime
    let a1 := if a0 < Int.tdiv nPowTargetTimespan 4 then Int.tdiv nPowTargetTimespan 4
      else a0
    let a2 := if a1 > nPowTargetTimespan * 4 then nPowTargetTimespan * 4 else a1
    let bnNew := (setCompact pindexLast.nBits).1
    let fShift := decide (0 < bitsOf params.powLimit ∧
      bitsOf bnNew > bitsOf params.powLimit - 1)
    let b1 := if fShift then bnNew / 2 else bnNew
    let b2 := b1 * u64 a2 % U256
    let b3 := b2 / u64 nPowTargetTimespan
    let b4 := if fShift then b3 * 2 % U256 else b3
    let b5 := if b4 > params.powLimit then params.powLimit else b4
    getCompact b5

/-- The testnet walk back to the last non-min-difficulty block
(`pow.cpp` lines 50-52). -/
def minDiffWalk (interval : Int) (limitC : Nat) : CBlockIndex → CBlockIndex
  | .genesis h t b a m => .genesis h t b a m
  | .link h t b a m prev =>
      if Int.tmod h interval ≠ 0 ∧ b = limitC then minDiffWalk interval limitC prev
      else .link h t b a m prev

/-- Embedding of `GetNextWorkRequired` (`pow.cpp` lines 24-77): the retarget entry
point; legacy single-algorithm path below `MultiAlgoForkHeight`,
multi-algorithm path from it on.  `none` models the `assert(pindexFirst)`
precondition failure when the chain is shorter than the look-back. -/
def GetNextWorkRequired (pindexLast : CBlockIndex) (pblock : CBlockHeader)
    (params : ConsensusParams) : Option Nat :=
  if pindexLast.nHeight + 1 < params.MultiAlgoForkHeight then
    let nProofOfWorkLimit := getCompact params.powLimit
    let interval :=
      if pindexLast.nHeight + 1 < params.FirstTimespanChangeHeight then
        Int.tdiv params.nPowOriginalTargetTimespan params.nPowTargetSpacing
      else Int.tdiv params.nPowTargetTimespan params.nPowTargetSpacing
    if Int.tmod (pindexLast.nHeight + 1) interval ≠ 0 then
      if params.fPowAllowMinDifficultyBlocks then
        if pblock.nTime > pindexLast.nTime + params.nPowTargetSpacing * 2 then
          some nProofOfWorkLimit
        else some (minDiffWalk interval nProofOfWorkLimit pindexLast).nBits
      else some pindexLast.nBits
    else
      let blockstogoback :=
        if pindexLast.nHeight + 1 ≠ interval then interval else interval - 1
      match walkBack pindexLast blockstogoback.toNat with
      | none => none
      | some first => some (CalculateNextWorkRequired pindexLast first.nTime params)
  else some (GetNextMultiAlgoWorkRequired pindexLast pblock params)

/-- The parameter set of the spec's end-to-end legacy scenario:
`MultiAlgoForkHeight = 1000000` (legacy path active) and
`FirstTimespanChangeHeight = 0`. -/
def c3Params : ConsensusParams :=
  { sampleParams with MultiAlgoForkHeight := 1000000, FirstTimespanChangeHeight := 0 }

/-- The spec's synthetic legacy chain: heights `0..n`, all compact bits
`0x1e0fffff`, block times spaced exactly 180 seconds apart. -/
def c3Chain : Nat → CBlockIndex
  | 0 => .genesis 0 1000000000 0x1e0fffff 1 0
  | k + 1 =>
      .link ((k : Int) + 1) (1000000000 + 180 * ((k : Int) + 1)) 0x1e0fffff 1 0
        (c3Chain k)

/-- C3 counterexample: on the spec's own 10-block evenly-spaced scenario,
the retarget at next height 10 (the first boundary after genesis) looks
back only `interval - 1 = 9` blocks, so `actual_timespan = 1620 ≠ 1800`
and the result `0x1e0e6665` differs from the previous block's bits
`0x1e0fffff`. -/
theorem legacyRetarget_firstBoundary_counterexample :
    GetNextWorkRequired (c3Chain 9) ⟨1000001620, 1⟩ c3Params = some 0x1e0e6665 ∧
    (c3Chain 9).nBits = 0x1e0fffff ∧ (0x1e0e6665 : Nat) ≠ 0x1e0fffff := by
  refine ⟨by decide, by decide, by decide⟩

/-- C3 (amended): on the evenly-spaced legacy chain the retarget at an
interval boundary AFTER the first (here the 20-block chain at next
height 20, where the look-back is the full interval of 10 blocks and
`actual_timespan` equals the 1800-second target timespan) reproduces the
previous block's compact bits exactly; at the first boundary after
genesis the look-back is `interval - 1` blocks and the bits change. -/
theorem legacyRetarget_secondBoundary :
    GetNextWorkRequired (c3Chain 19) ⟨1000003600, 1⟩ c3Params = some 0x1e0fffff ∧
    (c3Chain 19).nBits = 0x1e0fffff := by
  refine ⟨by decide, by decide⟩

/-- The parameter set exhibiting the off-by-one in the legacy timespan
selection: the original and current timespans differ and the previous
height sits one below the change height. -/
def c4Params : ConsensusParams :=
  { sampleParams with FirstTimespanChangeHeight := 5, nPowOriginalTargetTimespan := 1000, nPowTargetTimespan := 2000 }

/-- C4 counterexample: at previous height 4 with
`FirstTimespanChangeHeight = 5`, the next height 5 is NOT below the
change height, yet `CalculateNextWorkRequired` selects the ORIGINAL
timespan (the code tests the previous height, not the next height as in
the entry point's step 1), and the resulting compact bits differ from
what the current-timespan selection would produce. -/
theorem legacyTimespan_offByOne_counterexample :
    ¬((4 : Int) + 1 < c4Params.FirstTimespanChangeHeight) ∧
    legacySelectedTimespan c4Params 4 = c4Params.nPowOriginalTargetTimespan ∧
    c4Params.nPowOriginalTargetTimespan ≠ c4Params.nPowTargetTimespan ∧
    CalculateNextWorkRequired (.genesis 4 1500 0x1e0fffff 1 0) 1000 c4Params =
      legacyRetargetCalc 0x1e0fffff
        (clampTimespan c4Params.nPowOriginalTargetTimespan 500)
        c4Params.nPowOriginalTargetTimespan c4Params.powLimit ∧
    CalculateNextWorkRequired (.genesis 4 1500 0x1e0fffff 1 0) 1000 c4Params ≠
      legacyRetargetCalc 0x1e0fffff
        (clampTimespan c4Params.nPowTargetTimespan 500)
        c4Params.nPowTargetTimespan c4Params.powLimit := by
  refine ⟨by decide, by decide, by decide, by decide, by decide⟩

/-- C4 (amended): with retargeting enabled, `CalculateNextWorkRequired`
selects the original timespan when the PREVIOUS height (one less than the
entry point's next-height test) is below `FirstTimespanChangeHeight` and
the current timespan otherwise, clamps
`actual_timespan = prev.time - window_start_time` sequentially into
`[timespan/4, timespan*4]`, and feeds both into the shared
multiply-divide retarget tail. -/
theorem calculateNextWork_spec (p : CBlockIndex) (t0 : Int)
    (params : ConsensusParams) (hr : params.fPowNoRetargeting = false) :
    CalculateNextWorkRequired p t0 params =
      legacyRetargetCalc p.nBits
        (clampTimespan (legacySelectedTimespan params p.nHeight) (p.nTime - t0))
        (legacySelectedTimespan params p.nHeight) params.powLimit ∧
    (0 < legacySelectedTimespan params p.nHeight →
      Int.tdiv (legacySelectedTimespan params p.nHeight) 4 ≤
        clampTimespan (legacySelectedTimespan params p.nHeight) (p.nTime - t0) ∧
      clampTimespan (legacySelectedTimespan params p.nHeight) (p.nTime - t0) ≤
        legacySelectedTimespan params p.nHeight * 4) := by
  constructor
  · simp [CalculateNextWorkRequired, legacyRetargetCalc, clampTimespan,
      legacySelectedTimespan, hr]
  · intro hT
    have h4 : Int.tdiv (legacySelectedTimespan params p.nHeight) 4 =
        legacySelectedTimespan params p.nHeight / 4 :=
      Int.tdiv_eq_ediv (by omega) (by norm_num)
    simp only [clampTimespan, h4]
    split_ifs <;> omega

/-- C4 witness: the decomposition evaluated at a concrete node and
parameter set. -/
theorem calculateNextWork_spec_witness :
    CalculateNextWorkRequired (.genesis 4 1500 0x1e0fffff 1 0) 1000 c4Params =
      legacyRetargetCalc (CBlockIndex.genesis 4 1500 0x1e0fffff 1 0).nBits
        (clampTimespan
          (legacySelectedTimespan c4Params
            (CBlockIndex.genesis 4 1500 0x1e0fffff 1 0).nHeight)
          ((CBlockIndex.genesis 4 1500 0x1e0fffff 1 0).nTime - 1000))
        (legacySelectedTimespan c4Params
          (CBlockIndex.genesis 4 1500 0x1e0fffff 1 0).nHeight)
        c4Params.powLimit :=
  (calculateNextWork_spec (.genesis 4 1500 0x1e0fffff 1 0) 1000 c4Params rfl).1

/-- Number of nodes on the chain from a node back to its root. -/
def chainLen : CBlockIndex → Nat
  | .genesis _ _ _ _ _ => 1
  | .link _ _ _ _ _ prev => chainLen prev + 1

/-- Step-counted rendering of the `GetLastBlockIndexForAlgo` loop: one
unit of fuel per loop iteration, `none` when the fuel runs out before the
loop exits (which the theorem below shows cannot happen with fuel at
least the chain length). -/
def getLastBlockIndexForAlgoFuel (params : ConsensusParams) (algo spacing : Int) :
    Nat → CBlockIndex → Option (Option CBlockIndex)
  | 0, _ => none
  | _ + 1, .genesis h t b a m =>
      if a ≠ algo then some none else some (some (.genesis h t b a m))
  | fuel + 1, .link h t b a m prev =>
      if a ≠ algo then getLastBlockIndexForAlgoFuel params algo spacing fuel prev
      else if params.fPowAllowMinDifficultyBlocks ∧
          t > prev.nTime + spacing * 2 then
        getLastBlockIndexForAlgoFuel params algo spacing fuel prev
      else some (some (.link h t b a m prev))

/-- Step-counted rendering of the legacy min-difficulty walk-back loop
(`pow.cpp` lines 50-52). -/
def minDiffWalkFuel (interval : Int) (limitC : Nat) :
    Nat → CBlockIndex → Option CBlockIndex
  | 0, _ => none
  | _ + 1, .genesis h t b a m => some (.genesis h t b a m)
  | fuel + 1, .link h t b a m prev =>
      if Int.tmod h interval ≠ 0 ∧ b = limitC then
        minDiffWalkFuel interval limitC fuel prev
      else some (.link h t b a m prev)

/-- C8: on a finite acyclic chain every traversal loop of the retarget
code terminates within chain-length many iterations: the step-counted
`GetLastBlockIndexForAlgo` and min-difficulty walk-back loops complete
(returning the loop's value) whenever the fuel is at least the chain
length, and the bounded ancestor walk `walkBack` runs off the chain
exactly when asked for at least chain-length many steps. -/
theorem traversals_terminate (params : ConsensusParams) (algo spacing interval : Int)
    (limitC : Nat) (p : CBlockIndex) (fuel : Nat) (hf : chainLen p ≤ fuel) :
    getLastBlockIndexForAlgoFuel params algo spacing fuel p =
      some (GetLastBlockIndexForAlgo p params algo spacing) ∧
    minDiffWalkFuel interval limitC fuel p = some (minDiffWalk interval limitC p) ∧
    (∀ n : Nat, walkBack p n = none ↔ chainLen p ≤ n) := by
  induction p generalizing fuel with
  | genesis h t b a m =>
      obtain ⟨f, rfl⟩ : ∃ f, fuel = f + 1 :=
        ⟨fuel - 1, by simp [chainLen] at hf; omega⟩
      refine ⟨?_, ?_, ?_⟩
      · by_cases ha : a = algo <;>
          simp [getLastBlockIndexForAlgoFuel, GetLastBlockIndexForAlgo, ha]
      · simp [minDiffWalkFuel, minDiffWalk]
      · intro n
        cases n with
        | zero => simp [walkBack, chainLen]
        | succ n => simp [walkBack, chainLen]
  | link h t b a m prev ih =>
      have hlen : chainLen (.link h t b a m prev) = chainLen prev + 1 := rfl
      obtain ⟨f, rfl⟩ : ∃ f, fuel = f + 1 :=
        ⟨fuel - 1, by rw [hlen] at hf; omega⟩
      have hf' : chainLen prev ≤ f := by rw [hlen] at hf; omega
      obtain ⟨ih1, ih2, ih3⟩ := ih f hf'
      refine ⟨?_, ?_, ?_⟩
      · by_cases ha : a = algo
        · by_cases hs : params.fPowAllowMinDifficultyBlocks ∧
              t > prev.nTime + spacing * 2
          · simp [getLastBlockIndexForAlgoFuel, GetLastBlockIndexForAlgo, ha, hs, ih1]
          · simp [getLastBlockIndexForAlgoFuel, GetLastBlockIndexForAlgo, ha, hs]
        · simp [getLastBlockIndexForAlgoFuel, GetLastBlockIndexForAlgo, ha, ih1]
      · by_cases hb : Int.tmod h interval ≠ 0 ∧ b = limitC
        · simp [minDiffWalkFuel, minDiffWalk, hb, ih2]
        · simp [minDiffWalkFuel, minDiffWalk, hb]
      · intro n
        cases n with
        | zero => simp [walkBack, chainLen]
        | succ n =>
            have := ih3 n
            simp [walkBack, chainLen, this]

/-- C8 witness: the fueled `GetLastBlockIndexForAlgo` loop on a concrete
three-node chain completes with fuel equal to the chain length. -/
theorem traversals_terminate_witness :
    getLastBlockIndexForAlgoFuel sampleParams 1 900 3 (c3Chain 2) =
      some (GetLastBlockIndexForAlgo (c3Chain 2) sampleParams 1 900) :=
  (traversals_terminate sampleParams 1 900 10 0x1e0fffff (c3Chain 2) 3 (by decide)).1
